import Mathlib

/-!
Verification of the pci_debug memory-access engine and command interpreter
(`pci_debug.c`), as a shallow embedding.

The mapped BAR region is modelled as a total byte map `Mem : Nat -> Nat`
based at `dev->addr` (the sub-page offset is already folded into the base,
exactly as the C folds it into `dev->addr` once at startup).  Each write
stores a byte reduced mod 256, mirroring `unsigned char` stores.  The C
code's behaviour depends on the host byte order through compile-time
`__BYTE_ORDER` tests, so every function that touches a multi-byte value
takes a `hostLE : Bool` parameter (`hostLE = true` means
`__BYTE_ORDER == __LITTLE_ENDIAN`); theorems quantify over it.

A native 16/32-bit store (`*(unsigned short int *)p = data`) is modelled as
the simultaneous update of 2/4 consecutive bytes in host order; a native
load is the matching recomposition.  `msync` and `volatile` have no
functional content in a sequential model and are omitted.

`sscanf` is modelled only for the format strings the tool actually uses
(`"%*c %x %x %x %x"`, `"%*c%d %x %x %x %x"`, `"%*c%c"`): `%x` / `%d` skip
leading whitespace and read a maximal run of hex / decimal digits, and the
returned status counts successful conversions, exactly as the C checks it.
-/

/-- Byte-addressed view of the mapped region (`dev->addr + i`). -/
abbrev Mem := Nat → Nat

/-- The fields of `device_t` that the access engine reads: the region size
from `fstat` and the mapped bytes. -/
structure device_t where
  size : Nat
  mem  : Mem

/-- Interpreter session state: the device plus the `big_endian` flag
(`static int big_endian`), which the C code only ever sets to 0 or 1. -/
structure session where
  dev        : device_t
  big_endian : Nat

/-- Initial value of the `big_endian` flag (`static int big_endian = 0;`). -/
def big_endian_startup : Nat := 0

/-- Store one byte: `*(unsigned char *)(dev->addr + a) = d`. -/
def setByte (m : Mem) (a d : Nat) : Mem :=
  fun i => if i = a then d % 256 else m i

/-- `write_8`: unconditional one-byte volatile store.  Note there is no
bounds test anywhere in this function in the C source. -/
def write_8 (dev : device_t) (addr data : Nat) : device_t :=
  { dev with mem := setByte dev.mem addr data }

/-- `read_8`: unconditional one-byte volatile load. -/
def read_8 (dev : device_t) (addr : Nat) : Nat :=
  dev.mem addr % 256

/-- `bswap_16`. -/
def bswap_16 (d : Nat) : Nat :=
  d % 256 * 256 + d / 256 % 256

/-- `bswap_32`. -/
def bswap_32 (d : Nat) : Nat :=
  d % 256 * 16777216 + d / 256 % 256 * 65536 + d / 65536 % 256 * 256 +
    d / 16777216 % 256

/-- Native 16-bit store `*(volatile unsigned short int *)(dev->addr+a) = d`:
the two bytes of `d` land in host byte order. -/
def store16 (hostLE : Bool) (dev : device_t) (a d : Nat) : device_t :=
  { dev with mem := fun i =>
      if i = a then (if hostLE then d else d / 256) % 256
      else if i = a + 1 then (if hostLE then d / 256 else d) % 256
      else dev.mem i }

/-- Native 16-bit load, recomposing the two bytes in host byte order. -/
def load16 (hostLE : Bool) (dev : device_t) (a : Nat) : Nat :=
  if hostLE then read_8 dev a + 256 * read_8 dev (a + 1)
  else read_8 dev (a + 1) + 256 * read_8 dev a

/-- Native 32-bit store: the four bytes of `d` land in host byte order. -/
def store32 (hostLE : Bool) (dev : device_t) (a d : Nat) : device_t :=
  { dev with mem := fun i =>
      if i = a then (if hostLE then d else d / 16777216) % 256
      else if i = a + 1 then (if hostLE then d / 256 else d / 65536) % 256
      else if i = a + 2 then (if hostLE then d / 65536 else d / 256) % 256
      else if i = a + 3 then (if hostLE then d / 16777216 else d) % 256
      else dev.mem i }

/-- Native 32-bit load. -/
def load32 (hostLE : Bool) (dev : device_t) (a : Nat) : Nat :=
  if hostLE then
    read_8 dev a + 256 * read_8 dev (a + 1) + 65536 * read_8 dev (a + 2) +
      16777216 * read_8 dev (a + 3)
  else
    read_8 dev (a + 3) + 256 * read_8 dev (a + 2) + 65536 * read_8 dev (a + 1) +
      16777216 * read_8 dev a

/-- `write_le16`: swap when the host is not little-endian, then native store. -/
def write_le16 (hostLE : Bool) (dev : device_t) (a d : Nat) : device_t :=
  store16 hostLE dev a (if hostLE then d else bswap_16 d)

/-- `read_le16`: native load, then swap when the host is not little-endian. -/
def read_le16 (hostLE : Bool) (dev : device_t) (a : Nat) : Nat :=
  if hostLE then load16 hostLE dev a else bswap_16 (load16 hostLE dev a)

/-- `write_be16`: swap when the host is little-endian, then native store. -/
def write_be16 (hostLE : Bool) (dev : device_t) (a d : Nat) : device_t :=
  store16 hostLE dev a (if hostLE then bswap_16 d else d)

/-- `read_be16`. -/
def read_be16 (hostLE : Bool) (dev : device_t) (a : Nat) : Nat :=
  if hostLE then bswap_16 (load16 hostLE dev a) else load16 hostLE dev a

/-- `write_le32`. -/
def write_le32 (hostLE : Bool) (dev : device_t) (a d : Nat) : device_t :=
  store32 hostLE dev a (if hostLE then d else bswap_32 d)

/-- `read_le32`. -/
def read_le32 (hostLE : Bool) (dev : device_t) (a : Nat) : Nat :=
  if hostLE then load32 hostLE dev a else bswap_32 (load32 hostLE dev a)

/-- `write_be32`. -/
def write_be32 (hostLE : Bool) (dev : device_t) (a d : Nat) : device_t :=
  store32 hostLE dev a (if hostLE then bswap_32 d else d)

/-- `read_be32`. -/
def read_be32 (hostLE : Bool) (dev : device_t) (a : Nat) : Nat :=
  if hostLE then bswap_32 (load32 hostLE dev a) else load32 hostLE dev a

/-- The `if (big_endian == 0) write_le16 else write_be16` pattern that
appears at every 16-bit call site of `change_mem` / `fill_mem`. -/
def write16sel (hostLE : Bool) (be : Nat) (dev : device_t) (a d : Nat) : device_t :=
  if be = 0 then write_le16 hostLE dev a d else write_be16 hostLE dev a d

/-- The `if (big_endian == 0) read_le16 else read_be16` pattern of
`display_mem`. -/
def read16sel (hostLE : Bool) (be : Nat) (dev : device_t) (a : Nat) : Nat :=
  if be = 0 then read_le16 hostLE dev a else read_be16 hostLE dev a

/-- 32-bit endian-selected write. -/
def write32sel (hostLE : Bool) (be : Nat) (dev : device_t) (a d : Nat) : device_t :=
  if be = 0 then write_le32 hostLE dev a d else write_be32 hostLE dev a d

/-- 32-bit endian-selected read. -/
def read32sel (hostLE : Bool) (be : Nat) (dev : device_t) (a : Nat) : Nat :=
  if be = 0 then read_le32 hostLE dev a else read_be32 hostLE dev a

/-- One user-visible effect of a command: the lines `printf` produces,
abstracted to their content.  `record a v` is one displayed memory unit. -/
inductive Output where
  | syntaxError  : Output
  | addrError    : Output
  | record       : Nat → Nat → Output
  | endianLittle : Output
  | endianBig    : Output
  | helpShown    : Output
deriving DecidableEq

/-- Number of displayed memory units in an output list. -/
def countRecords (l : List Output) : Nat :=
  (l.filter fun o => match o with | Output.record _ _ => true | _ => false).length

/-- The common `if ((addr + len) > dev->size) len = dev->size;` step of
`display_mem` and `fill_mem`.  Note that the C assigns `dev->size`, not
`dev->size - addr`. -/
def clampLen (size addr len : Nat) : Nat :=
  if size < addr + len then size else len

/-- `display_mem` after its `sscanf` block: the address check, the length
clamp, and the three width-dispatched read loops (the loops run `i` up to
`len` in steps of 1, 2 or 4, hence 'len', '(len+1)/2' and '(len+3)/4'
iterations). -/
def display_mem_go (hostLE : Bool) (s : session) (width addr len : Nat) :
    session × List Output × Int :=
  if s.dev.size < addr then (s, [Output.addrError], 0)
  else if width = 8 then
    (s, (List.range (clampLen s.dev.size addr len)).map
          (fun i => Output.record (addr + i) (read_8 s.dev (addr + i))), 0)
  else if width = 16 then
    (s, (List.range ((clampLen s.dev.size addr len + 1) / 2)).map
          (fun k => Output.record (addr + 2 * k)
            (read16sel hostLE s.big_endian s.dev (addr + 2 * k))), 0)
  else if width = 32 then
    (s, (List.range ((clampLen s.dev.size addr len + 3) / 4)).map
          (fun k => Output.record (addr + 4 * k)
            (read32sel hostLE s.big_endian s.dev (addr + 4 * k))), 0)
  else (s, [Output.syntaxError], 0)

/-- `change_mem` after its `sscanf` block: the address check (start address
only) and a single width-dispatched write; the value cast `(unsigned
char)d32` / `(unsigned short)d32` is performed by the byte-level stores. -/
def change_mem_go (hostLE : Bool) (s : session) (width addr d32 : Nat) :
    session × List Output × Int :=
  if s.dev.size < addr then (s, [Output.addrError], 0)
  else if width = 8 then
    ({ s with dev := write_8 s.dev addr d32 }, [], 0)
  else if width = 16 then
    ({ s with dev := write16sel hostLE s.big_endian s.dev addr d32 }, [], 0)
  else if width = 32 then
    ({ s with dev := write32sel hostLE s.big_endian s.dev addr d32 }, [], 0)
  else (s, [Output.syntaxError], 0)

/-- The 8-bit fill loop `for (i = 0; i < len; i++) write_8(addr+i, d32+i*inc)`,
unrolled from the last iteration. -/
def fillLoop8 (dev : device_t) (addr d32 inc : Nat) : Nat → device_t
  | 0 => dev
  | n + 1 => write_8 (fillLoop8 dev addr d32 inc n) (addr + n) (d32 + n * inc)

/-- The 16-bit fill loop: `n` iterations writing `d32 + i*inc` at `addr+2*i`. -/
def fillLoop16 (hostLE : Bool) (be : Nat) (dev : device_t)
    (addr d32 inc : Nat) : Nat → device_t
  | 0 => dev
  | n + 1 => write16sel hostLE be (fillLoop16 hostLE be dev addr d32 inc n)
      (addr + 2 * n) (d32 + n * inc)

/-- The 32-bit fill loop: `n` iterations writing `d32 + i*inc` at `addr+4*i`. -/
def fillLoop32 (hostLE : Bool) (be : Nat) (dev : device_t)
    (addr d32 inc : Nat) : Nat → device_t
  | 0 => dev
  | n + 1 => write32sel hostLE be (fillLoop32 hostLE be dev addr d32 inc n)
      (addr + 4 * n) (d32 + n * inc)

/-- `fill_mem` after its `sscanf` block: address check, length clamp, and the
width-dispatched loops (`i < len`, `i < len/2`, `i < len/4` iterations). -/
def fill_mem_go (hostLE : Bool) (s : session) (width addr d32 len inc : Nat) :
    session × List Output × Int :=
  if s.dev.size < addr then (s, [Output.addrError], 0)
  else if width = 8 then
    ({ s with dev := fillLoop8 s.dev addr d32 inc (clampLen s.dev.size addr len) }, [], 0)
  else if width = 16 then
    ({ s with dev := fillLoop16 hostLE s.big_endian s.dev addr d32 inc (clampLen s.dev.size addr len / 2) }, [], 0)
  else if width = 32 then
    ({ s with dev := fillLoop32 hostLE s.big_endian s.dev addr d32 inc (clampLen s.dev.size addr len / 4) }, [], 0)
  else (s, [Output.syntaxError], 0)

/-- Hexadecimal digit value, as `%x` accepts it. -/
def hexDigitVal (c : Char) : Option Nat :=
  if '0' ≤ c ∧ c ≤ '9' then some (c.toNat - '0'.toNat)
  else if 'a' ≤ c ∧ c ≤ 'f' then some (c.toNat - 'a'.toNat + 10)
  else if 'A' ≤ c ∧ c ≤ 'F' then some (c.toNat - 'A'.toNat + 10)
  else none

/-- Decimal digit value, as `%d` accepts it. -/
def decDigitVal (c : Char) : Option Nat :=
  if '0' ≤ c ∧ c ≤ '9' then some (c.toNat - '0'.toNat) else none

/-- Accumulate a maximal run of digits. -/
def takeDigits (dig : Char → Option Nat) (base : Nat) :
    Nat → List Char → Nat × List Char
  | acc, [] => (acc, [])
  | acc, c :: rest =>
    match dig c with
    | some d => takeDigits dig base (acc * base + d) rest
    | none => (acc, c :: rest)

/-- Skip the whitespace that `%x` / `%d` (and blanks in the format) skip. -/
def skipWS : List Char → List Char
  | [] => []
  | c :: rest => if c = ' ' ∨ c = '\t' then skipWS rest else c :: rest

/-- One numeric conversion: skip whitespace, then require at least one digit. -/
def takeNum (dig : Char → Option Nat) (base : Nat) (cmd : List Char) :
    Option (Nat × List Char) :=
  match skipWS cmd with
  | [] => none
  | c :: rest =>
    match dig c with
    | none => none
    | some d => some (takeDigits dig base d rest)

/-- `%x` conversion. -/
def takeHex (cmd : List Char) : Option (Nat × List Char) :=
  takeNum hexDigitVal 16 cmd

/-- `%d` conversion. -/
def takeDec (cmd : List Char) : Option (Nat × List Char) :=
  takeNum decDigitVal 10 cmd

/-- Up to `n` successive `%x` conversions; the list length is the number of
successful conversions (the tail of the `sscanf` status). -/
def scanHexN : List Char → Nat → List Nat
  | _, 0 => []
  | cmd, n + 1 =>
    match takeHex cmd with
    | none => []
    | some (v, rest) => v :: scanHexN rest n

/-- The shared `sscanf` prelude of `display_mem` and `change_mem`: if
`cmd[1]` is a space, `"%*c %x %x"` with required status 2 and width 32;
otherwise `"%*c%d %x %x"` with required status 3.  Returns
`(width, first, second)` on success, `none` on a syntax error. -/
def parse_w2 : List Char → Option (Nat × Nat × Nat)
  | [] => none
  | _ :: rest =>
    if rest.headD (Char.ofNat 0) = ' ' then
      match scanHexN rest 2 with
      | [a, b] => some (32, a, b)
      | _ => none
    else
      match takeDec rest with
      | none => none
      | some (w, tail) =>
        match scanHexN tail 2 with
        | [a, b] => some (w, a, b)
        | _ => none

/-- The `sscanf` prelude of `fill_mem`, including its status checks.
Default-width branch (`"%*c %x %x %x %x"`): status 4 keeps the supplied
`inc`, status 3 defaults `inc` to 1, anything else is a syntax error.
Width branch (`"%*c%d %x %x %x %x"`): the C accepts only status 3 or 4, so
a supplied `inc` (status 5) is REJECTED as a syntax error, status 4
defaults `inc` to 1, and status 3 leaves `len` and `inc` at their
initialised value 0. -/
def parse_fill : List Char → Option (Nat × Nat × Nat × Nat × Nat)
  | [] => none
  | _ :: rest =>
    if rest.headD (Char.ofNat 0) = ' ' then
      match scanHexN rest 4 with
      | [a, v, l, i] => some (32, a, v, l, i)
      | [a, v, l] => some (32, a, v, l, 1)
      | _ => none
    else
      match takeDec rest with
      | none => none
      | some (w, tail) =>
        match scanHexN tail 4 with
        | [_, _, _, _] => none
        | [a, v, l] => some (w, a, v, l, 1)
        | [a, v] => some (w, a, v, 0, 0)
        | _ => none

/-- `display_mem`, `sscanf` included. -/
def display_mem (hostLE : Bool) (s : session) (cmd : List Char) :
    session × List Output × Int :=
  match parse_w2 cmd with
  | none => (s, [Output.syntaxError], 0)
  | some (w, addr, len) => display_mem_go hostLE s w addr len

/-- `change_mem`, `sscanf` included. -/
def change_mem (hostLE : Bool) (s : session) (cmd : List Char) :
    session × List Output × Int :=
  match parse_w2 cmd with
  | none => (s, [Output.syntaxError], 0)
  | some (w, addr, d32) => change_mem_go hostLE s w addr d32

/-- `fill_mem`, `sscanf` included. -/
def fill_mem (hostLE : Bool) (s : session) (cmd : List Char) :
    session × List Output × Int :=
  match parse_fill cmd with
  | none => (s, [Output.syntaxError], 0)
  | some (w, addr, d32, len, inc) => fill_mem_go hostLE s w addr d32 len inc

/-- `change_endian`: `sscanf(cmd, "%*c%c")` fails (status < 0) when the
command is a bare letter, in which case the current mode is printed;
otherwise the suffix character selects the mode, anything other than `b` or
`l` being a syntax error that leaves the flag untouched. -/
def change_endian (s : session) (cmd : List Char) :
    session × List Output × Int :=
  match cmd with
  | _ :: c :: _ =>
    if c = 'b' then ({ s with big_endian := 1 }, [], 0)
    else if c = 'l' then ({ s with big_endian := 0 }, [], 0)
    else (s, [Output.syntaxError], 0)
  | _ =>
    if s.big_endian = 0 then (s, [Output.endianLittle], 0)
    else (s, [Output.endianBig], 0)

/-- `process_command`: dispatch on the first character; only `q`/`Q` returns
a negative status, which is what makes `parse_command` break its loop. -/
def process_command (hostLE : Bool) (s : session) (cmd : List Char) :
    session × List Output × Int :=
  match cmd with
  | [] => (s, [], 0)
  | c :: _ =>
    if c = '?' then (s, [Output.helpShown], 0)
    else if c = 'c' ∨ c = 'C' then change_mem hostLE s cmd
    else if c = 'd' ∨ c = 'D' then display_mem hostLE s cmd
    else if c = 'e' ∨ c = 'E' then change_endian s cmd
    else if c = 'f' ∨ c = 'F' then fill_mem hostLE s cmd
    else if c = 'q' ∨ c = 'Q' then (s, [], -1)
    else (s, [], 0)

/-- Observable states of the `parse_command` loop. -/
inductive LoopState where
  | Running    : LoopState
  | Terminated : LoopState
deriving DecidableEq

/-- One iteration of the `parse_command` loop: `status = process_command(...);
if (status < 0) break;`. -/
def loopStep (hostLE : Bool) (s : session) (st : LoopState) (cmd : List Char) :
    LoopState :=
  match st with
  | LoopState.Terminated => LoopState.Terminated
  | LoopState.Running =>
    if (process_command hostLE s cmd).2.2 < 0 then LoopState.Terminated
    else LoopState.Running

/-- A zero-filled 16-byte region, for concrete runs. -/
def dev0 : device_t := ⟨16, fun _ => 0⟩

/-- A fresh session on `dev0` with the startup endian flag. -/
def s16 : session := ⟨dev0, big_endian_startup⟩

/-- A zero-filled 4-byte region, for out-of-bounds runs. -/
def dev4 : device_t := ⟨4, fun _ => 0⟩

/-- A fresh session on `dev4`. -/
def s4 : session := ⟨dev4, big_endian_startup⟩

theorem read_8_write_8_same (dev : device_t) (a d : Nat) :
    read_8 (write_8 dev a d) a = d % 256 := by
  simp [read_8, write_8, setByte]

theorem read_8_write_8_ne (dev : device_t) (a d i : Nat) (h : i ≠ a) :
    read_8 (write_8 dev a d) i = read_8 dev i := by
  simp [read_8, write_8, setByte, h]

theorem store16_mem_0 (hostLE : Bool) (dev : device_t) (a d : Nat) :
    (store16 hostLE dev a d).mem a = (if hostLE then d else d / 256) % 256 := by
  simp [store16]

theorem store16_mem_1 (hostLE : Bool) (dev : device_t) (a d : Nat) :
    (store16 hostLE dev a d).mem (a + 1) = (if hostLE then d / 256 else d) % 256 := by
  simp [store16]

theorem store16_mem_ne (hostLE : Bool) (dev : device_t) (a d i : Nat)
    (h0 : i ≠ a) (h1 : i ≠ a + 1) :
    (store16 hostLE dev a d).mem i = dev.mem i := by
  simp only [store16]
  rw [if_neg h0, if_neg h1]

theorem store32_mem_0 (hostLE : Bool) (dev : device_t) (a d : Nat) :
    (store32 hostLE dev a d).mem a = (if hostLE then d else d / 16777216) % 256 := by
  simp [store32]

theorem store32_mem_1 (hostLE : Bool) (dev : device_t) (a d : Nat) :
    (store32 hostLE dev a d).mem (a + 1) = (if hostLE then d / 256 else d / 65536) % 256 := by
  simp [store32]

theorem store32_mem_2 (hostLE : Bool) (dev : device_t) (a d : Nat) :
    (store32 hostLE dev a d).mem (a + 2) = (if hostLE then d / 65536 else d / 256) % 256 := by
  simp [store32]

theorem store32_mem_3 (hostLE : Bool) (dev : device_t) (a d : Nat) :
    (store32 hostLE dev a d).mem (a + 3) = (if hostLE then d / 16777216 else d) % 256 := by
  simp [store32]

theorem store32_mem_ne (hostLE : Bool) (dev : device_t) (a d i : Nat)
    (h0 : i ≠ a) (h1 : i ≠ a + 1) (h2 : i ≠ a + 2) (h3 : i ≠ a + 3) :
    (store32 hostLE dev a d).mem i = dev.mem i := by
  simp only [store32]
  rw [if_neg h0, if_neg h1, if_neg h2, if_neg h3]

theorem load16_store16 (hostLE : Bool) (dev : device_t) (a d : Nat) :
    load16 hostLE (store16 hostLE dev a d) a = d % 65536 := by
  cases hostLE <;>
    simp only [load16, read_8, store16_mem_0, store16_mem_1, if_pos, if_neg,
      Bool.false_eq_true, ite_true, ite_false] <;> omega

theorem load32_store32 (hostLE : Bool) (dev : device_t) (a d : Nat) :
    load32 hostLE (store32 hostLE dev a d) a = d % 4294967296 := by
  cases hostLE <;>
    simp only [load32, read_8, store32_mem_0, store32_mem_1, store32_mem_2,
      store32_mem_3, Bool.false_eq_true, ite_true, ite_false] <;> omega

theorem bytes_16 (b0 b1 : Nat) (h0 : b0 < 256) (h1 : b1 < 256) :
    (b1 * 256 + b0) % 256 = b0 ∧ (b1 * 256 + b0) / 256 % 256 = b1 := by
  omega

theorem bytes_32 (b0 b1 b2 b3 : Nat) (h0 : b0 < 256) (h1 : b1 < 256)
    (h2 : b2 < 256) (h3 : b3 < 256) :
    (b3 * 16777216 + b2 * 65536 + b1 * 256 + b0) % 256 = b0 ∧
    (b3 * 16777216 + b2 * 65536 + b1 * 256 + b0) / 256 % 256 = b1 ∧
    (b3 * 16777216 + b2 * 65536 + b1 * 256 + b0) / 65536 % 256 = b2 ∧
    (b3 * 16777216 + b2 * 65536 + b1 * 256 + b0) / 16777216 % 256 = b3 := by
  omega

theorem bswap_16_mod (d : Nat) : bswap_16 (d % 65536) = bswap_16 d := by
  unfold bswap_16; omega

theorem bswap_16_bswap_16 (d : Nat) : bswap_16 (bswap_16 d) = d % 65536 := by
  obtain ⟨k0, k1⟩ := bytes_16 (d / 256 % 256) (d % 256) (by omega) (by omega)
  show bswap_16 d % 256 * 256 + bswap_16 d / 256 % 256 = d % 65536
  rw [show bswap_16 d = d % 256 * 256 + d / 256 % 256 from rfl, k0, k1]
  omega

theorem bswap_32_mod (d : Nat) : bswap_32 (d % 4294967296) = bswap_32 d := by
  unfold bswap_32; omega

theorem bswap_32_bswap_32 (d : Nat) : bswap_32 (bswap_32 d) = d % 4294967296 := by
  obtain ⟨k0, k1, k2, k3⟩ := bytes_32 (d / 16777216 % 256) (d / 65536 % 256)
    (d / 256 % 256) (d % 256) (by omega) (by omega) (by omega) (by omega)
  show bswap_32 d % 256 * 16777216 + bswap_32 d / 256 % 256 * 65536 +
      bswap_32 d / 65536 % 256 * 256 + bswap_32 d / 16777216 % 256 = d % 4294967296
  rw [show bswap_32 d = d % 256 * 16777216 + d / 256 % 256 * 65536 +
      d / 65536 % 256 * 256 + d / 16777216 % 256 from rfl, k0, k1, k2, k3]
  clear k0 k1 k2 k3
  omega

theorem read_le16_write_le16 (hostLE : Bool) (dev : device_t) (a d : Nat) :
    read_le16 hostLE (write_le16 hostLE dev a d) a = d % 65536 := by
  cases hostLE <;>
    simp only [read_le16, write_le16, Bool.false_eq_true, ite_true, ite_false,
      load16_store16]
  rw [bswap_16_mod, bswap_16_bswap_16]

theorem read_be16_write_be16 (hostLE : Bool) (dev : device_t) (a d : Nat) :
    read_be16 hostLE (write_be16 hostLE dev a d) a = d % 65536 := by
  cases hostLE <;>
    simp only [read_be16, write_be16, Bool.false_eq_true, ite_true, ite_false,
      load16_store16]
  rw [bswap_16_mod, bswap_16_bswap_16]

theorem read_le32_write_le32 (hostLE : Bool) (dev : device_t) (a d : Nat) :
    read_le32 hostLE (write_le32 hostLE dev a d) a = d % 4294967296 := by
  cases hostLE <;>
    simp only [read_le32, write_le32, Bool.false_eq_true, ite_true, ite_false,
      load32_store32]
  rw [bswap_32_mod, bswap_32_bswap_32]

theorem read_be32_write_be32 (hostLE : Bool) (dev : device_t) (a d : Nat) :
    read_be32 hostLE (write_be32 hostLE dev a d) a = d % 4294967296 := by
  cases hostLE <;>
    simp only [read_be32, write_be32, Bool.false_eq_true, ite_true, ite_false,
      load32_store32]
  rw [bswap_32_mod, bswap_32_bswap_32]

theorem read16sel_write16sel_same (hostLE : Bool) (be : Nat) (dev : device_t)
    (a d : Nat) :
    read16sel hostLE be (write16sel hostLE be dev a d) a = d % 65536 := by
  by_cases h : be = 0 <;>
    simp [read16sel, write16sel, h, read_le16_write_le16, read_be16_write_be16]

theorem read32sel_write32sel_same (hostLE : Bool) (be : Nat) (dev : device_t)
    (a d : Nat) :
    read32sel hostLE be (write32sel hostLE be dev a d) a = d % 4294967296 := by
  by_cases h : be = 0 <;>
    simp [read32sel, write32sel, h, read_le32_write_le32, read_be32_write_be32]

theorem write16sel_mem_ne (hostLE : Bool) (be : Nat) (dev : device_t)
    (a d i : Nat) (h0 : i ≠ a) (h1 : i ≠ a + 1) :
    (write16sel hostLE be dev a d).mem i = dev.mem i := by
  by_cases h : be = 0 <;>
    simp only [write16sel, write_le16, write_be16, h, if_true, if_false,
      ite_true, ite_false, store16_mem_ne hostLE _ _ _ _ h0 h1]

theorem write32sel_mem_ne (hostLE : Bool) (be : Nat) (dev : device_t)
    (a d i : Nat) (h0 : i ≠ a) (h1 : i ≠ a + 1) (h2 : i ≠ a + 2) (h3 : i ≠ a + 3) :
    (write32sel hostLE be dev a d).mem i = dev.mem i := by
  by_cases h : be = 0 <;>
    simp only [write32sel, write_le32, write_be32, h, if_true, if_false,
      ite_true, ite_false, store32_mem_ne hostLE _ _ _ _ h0 h1 h2 h3]

theorem read16sel_congr (hostLE : Bool) (be : Nat) (dev dev2 : device_t)
    (a : Nat) (h0 : dev.mem a = dev2.mem a) (h1 : dev.mem (a + 1) = dev2.mem (a + 1)) :
    read16sel hostLE be dev a = read16sel hostLE be dev2 a := by
  cases hostLE <;> by_cases h : be = 0 <;>
    simp [read16sel, read_le16, read_be16, load16, read_8, h, h0, h1]

theorem read32sel_congr (hostLE : Bool) (be : Nat) (dev dev2 : device_t)
    (a : Nat) (h0 : dev.mem a = dev2.mem a) (h1 : dev.mem (a + 1) = dev2.mem (a + 1))
    (h2 : dev.mem (a + 2) = dev2.mem (a + 2)) (h3 : dev.mem (a + 3) = dev2.mem (a + 3)) :
    read32sel hostLE be dev a = read32sel hostLE be dev2 a := by
  cases hostLE <;> by_cases h : be = 0 <;>
    simp [read32sel, read_le32, read_be32, load32, read_8, h, h0, h1, h2, h3]

theorem fillLoop8_read (dev : device_t) (addr d32 inc : Nat) :
    ∀ n i, i < n →
      read_8 (fillLoop8 dev addr d32 inc n) (addr + i) = (d32 + i * inc) % 256 := by
  intro n
  induction n with
  | zero => intro i h; omega
  | succ n ih =>
    intro i h
    show read_8 (write_8 (fillLoop8 dev addr d32 inc n) (addr + n) (d32 + n * inc)) (addr + i) = _
    by_cases hi : i = n
    · subst hi
      rw [read_8_write_8_same]
    · rw [read_8_write_8_ne _ _ _ _ (by omega), ih i (by omega)]

theorem fillLoop16_read (hostLE : Bool) (be : Nat) (dev : device_t)
    (addr d32 inc : Nat) :
    ∀ n i, i < n →
      read16sel hostLE be (fillLoop16 hostLE be dev addr d32 inc n) (addr + 2 * i) =
        (d32 + i * inc) % 65536 := by
  intro n
  induction n with
  | zero => intro i h; omega
  | succ n ih =>
    intro i h
    show read16sel hostLE be (write16sel hostLE be (fillLoop16 hostLE be dev addr d32 inc n) (addr + 2 * n) (d32 + n * inc)) (addr + 2 * i) = _
    by_cases hi : i = n
    · subst hi
      rw [read16sel_write16sel_same]
    · rw [read16sel_congr hostLE be _ (fillLoop16 hostLE be dev addr d32 inc n) _
        (write16sel_mem_ne hostLE be _ _ _ _ (by omega) (by omega))
        (write16sel_mem_ne hostLE be _ _ _ _ (by omega) (by omega))]
      exact ih i (by omega)

theorem fillLoop32_read (hostLE : Bool) (be : Nat) (dev : device_t)
    (addr d32 inc : Nat) :
    ∀ n i, i < n →
      read32sel hostLE be (fillLoop32 hostLE be dev addr d32 inc n) (addr + 4 * i) =
        (d32 + i * inc) % 4294967296 := by
  intro n
  induction n with
  | zero => intro i h; omega
  | succ n ih =>
    intro i h
    show read32sel hostLE be (write32sel hostLE be (fillLoop32 hostLE be dev addr d32 inc n) (addr + 4 * n) (d32 + n * inc)) (addr + 4 * i) = _
    by_cases hi : i = n
    · subst hi
      rw [read32sel_write32sel_same]
    · rw [read32sel_congr hostLE be _ (fillLoop32 hostLE be dev addr d32 inc n) _
        (write32sel_mem_ne hostLE be _ _ _ _ (by omega) (by omega) (by omega) (by omega))
        (write32sel_mem_ne hostLE be _ _ _ _ (by omega) (by omega) (by omega) (by omega))
        (write32sel_mem_ne hostLE be _ _ _ _ (by omega) (by omega) (by omega) (by omega))
        (write32sel_mem_ne hostLE be _ _ _ _ (by omega) (by omega) (by omega) (by omega))]
      exact ih i (by omega)

theorem clampLen_of_le (size addr len : Nat) (h : addr + len ≤ size) :
    clampLen size addr len = len := by
  unfold clampLen
  rw [if_neg (by omega)]

theorem fill_mem_go_8 (hostLE : Bool) (s : session) (addr v len inc : Nat)
    (h : addr + len ≤ s.dev.size) :
    fill_mem_go hostLE s 8 addr v len inc =
      ({ s with dev := fillLoop8 s.dev addr v inc len }, [], 0) := by
  unfold fill_mem_go
  rw [if_neg (by omega), clampLen_of_le _ _ _ h]
  rfl

theorem fill_mem_go_16 (hostLE : Bool) (s : session) (addr v len inc : Nat)
    (h : addr + len ≤ s.dev.size) :
    fill_mem_go hostLE s 16 addr v len inc =
      ({ s with dev := fillLoop16 hostLE s.big_endian s.dev addr v inc (len / 2) }, [], 0) := by
  unfold fill_mem_go
  rw [if_neg (by omega), clampLen_of_le _ _ _ h]
  rfl

theorem fill_mem_go_32 (hostLE : Bool) (s : session) (addr v len inc : Nat)
    (h : addr + len ≤ s.dev.size) :
    fill_mem_go hostLE s 32 addr v len inc =
      ({ s with dev := fillLoop32 hostLE s.big_endian s.dev addr v inc (len / 4) }, [], 0) := by
  unfold fill_mem_go
  rw [if_neg (by omega), clampLen_of_le _ _ _ h]
  rfl

theorem display_mem_go_ret (hostLE : Bool) (s : session) (w a l : Nat) :
    (display_mem_go hostLE s w a l).2.2 = 0 := by
  unfold display_mem_go
  repeat' split
  all_goals rfl

theorem change_mem_go_ret (hostLE : Bool) (s : session) (w a v : Nat) :
    (change_mem_go hostLE s w a v).2.2 = 0 := by
  unfold change_mem_go
  repeat' split
  all_goals rfl

theorem fill_mem_go_ret (hostLE : Bool) (s : session) (w a v l inc : Nat) :
    (fill_mem_go hostLE s w a v l inc).2.2 = 0 := by
  unfold fill_mem_go
  repeat' split
  all_goals rfl

theorem display_mem_ret (hostLE : Bool) (s : session) (cmd : List Char) :
    (display_mem hostLE s cmd).2.2 = 0 := by
  unfold display_mem
  cases h : parse_w2 cmd with
  | none => rfl
  | some x =>
    obtain ⟨w, a, l⟩ := x
    exact display_mem_go_ret hostLE s w a l

theorem change_mem_ret (hostLE : Bool) (s : session) (cmd : List Char) :
    (change_mem hostLE s cmd).2.2 = 0 := by
  unfold change_mem
  cases h : parse_w2 cmd with
  | none => rfl
  | some x =>
    obtain ⟨w, a, v⟩ := x
    exact change_mem_go_ret hostLE s w a v

theorem fill_mem_ret (hostLE : Bool) (s : session) (cmd : List Char) :
    (fill_mem hostLE s cmd).2.2 = 0 := by
  unfold fill_mem
  cases h : parse_fill cmd with
  | none => rfl
  | some x =>
    obtain ⟨w, a, v, l, inc⟩ := x
    exact fill_mem_go_ret hostLE s w a v l inc

theorem change_endian_ret (s : session) (cmd : List Char) :
    (change_endian s cmd).2.2 = 0 := by
  unfold change_endian
  repeat' split
  all_goals rfl

theorem process_command_ret_quit (hostLE : Bool) (s : session) (c : Char)
    (t : List Char) (h : c = 'q' ∨ c = 'Q') :
    (process_command hostLE s (c :: t)).2.2 = -1 := by
  rcases h with h | h <;> subst h <;> simp [process_command]

theorem process_command_ret_other (hostLE : Bool) (s : session) (c : Char)
    (t : List Char) (h : ¬(c = 'q' ∨ c = 'Q')) :
    (process_command hostLE s (c :: t)).2.2 = 0 := by
  show (if c = '?' then (s, [Output.helpShown], (0 : Int))
    else if c = 'c' ∨ c = 'C' then change_mem hostLE s (c :: t)
    else if c = 'd' ∨ c = 'D' then display_mem hostLE s (c :: t)
    else if c = 'e' ∨ c = 'E' then change_endian s (c :: t)
    else if c = 'f' ∨ c = 'F' then fill_mem hostLE s (c :: t)
    else if c = 'q' ∨ c = 'Q' then (s, [], -1)
    else (s, [], 0)).2.2 = 0
  by_cases h1 : c = '?'
  · rw [if_pos h1]
  · rw [if_neg h1]
    by_cases h2 : c = 'c' ∨ c = 'C'
    · rw [if_pos h2]; exact change_mem_ret hostLE s (c :: t)
    · rw [if_neg h2]
      by_cases h3 : c = 'd' ∨ c = 'D'
      · rw [if_pos h3]; exact display_mem_ret hostLE s (c :: t)
      · rw [if_neg h3]
        by_cases h4 : c = 'e' ∨ c = 'E'
        · rw [if_pos h4]; exact change_endian_ret s (c :: t)
        · rw [if_neg h4]
          by_cases h5 : c = 'f' ∨ c = 'F'
          · rw [if_pos h5]; exact fill_mem_ret hostLE s (c :: t)
          · rw [if_neg h5, if_neg h]

/-- Claim C8: the command loop has exactly the two observable states `Running`
and `Terminated`; a line signals termination (negative `process_command`
status) if and only if its leading letter is `q` or `Q`, and every other
line, `Invalid` and failed accesses included, returns status 0 and leaves
the loop `Running`. -/
theorem interpreter_two_states (hostLE : Bool) (s : session) (cmd : List Char) :
    (loopStep hostLE s LoopState.Running cmd = LoopState.Terminated ↔
      cmd.head? = some 'q' ∨ cmd.head? = some 'Q') ∧
    ((process_command hostLE s cmd).2.2 = 0 ∨ (process_command hostLE s cmd).2.2 = -1) := by
  cases cmd with
  | nil =>
    constructor
    · simp [loopStep, process_command]
    · left; rfl
  | cons c t =>
    by_cases h : c = 'q' ∨ c = 'Q'
    · have hr := process_command_ret_quit hostLE s c t h
      refine ⟨?_, Or.inr hr⟩
      unfold loopStep
      rw [hr]
      simp only [List.head?_cons, Option.some.injEq]
      constructor
      · intro _; exact h
      · intro _; simp
    · have hr := process_command_ret_other hostLE s c t h
      refine ⟨?_, Or.inl hr⟩
      unfold loopStep
      rw [hr]
      simp only [List.head?_cons, Option.some.injEq]
      constructor
      · intro hterm
        exact absurd hterm (by simp)
      · intro hqs
        exact absurd hqs h

/-- Claim C7: `change(width, addr, value)` reports the address-range error
exactly when the start address exceeds the region size; whenever
`addr <= size` the write is performed unconditionally, even though
`addr + width_bytes` may exceed the size (only the start address is
checked). -/
theorem change_checks_start_only (hostLE : Bool) (s : session) (w addr v : Nat) :
    ((change_mem_go hostLE s w addr v).2.1 = [Output.addrError] ↔ s.dev.size < addr) ∧
    (addr ≤ s.dev.size →
      change_mem_go hostLE s 8 addr v = ({ s with dev := write_8 s.dev addr v }, [], 0) ∧
      change_mem_go hostLE s 16 addr v = ({ s with dev := write16sel hostLE s.big_endian s.dev addr v }, [], 0) ∧
      change_mem_go hostLE s 32 addr v = ({ s with dev := write32sel hostLE s.big_endian s.dev addr v }, [], 0)) := by
  constructor
  · constructor
    · intro hout
      by_contra hb
      unfold change_mem_go at hout
      rw [if_neg hb] at hout
      repeat' split at hout
      all_goals simp_all
    · intro hb
      unfold change_mem_go
      rw [if_pos hb]
  · intro hb
    refine ⟨?_, ?_, ?_⟩ <;> (unfold change_mem_go; rw [if_neg (by omega)]) <;> rfl

/-- Claim C9: the start-address bound of `display_mem`, `change_mem` and
`fill_mem` is the strict comparison `addr > size`: at `addr = size` none of
them reports the address error (the command proceeds past the check), while
at `addr = size + 1` all three do. -/
theorem start_bound_strict (hostLE : Bool) (s : session) (w v len inc : Nat) :
    (Output.addrError ∉ (display_mem_go hostLE s w s.dev.size len).2.1 ∧
     Output.addrError ∉ (change_mem_go hostLE s w s.dev.size v).2.1 ∧
     Output.addrError ∉ (fill_mem_go hostLE s w s.dev.size v len inc).2.1) ∧
    ((display_mem_go hostLE s w (s.dev.size + 1) len).2.1 = [Output.addrError] ∧
     (change_mem_go hostLE s w (s.dev.size + 1) v).2.1 = [Output.addrError] ∧
     (fill_mem_go hostLE s w (s.dev.size + 1) v len inc).2.1 = [Output.addrError]) := by
  refine ⟨⟨?_, ?_, ?_⟩, ?_, ?_, ?_⟩
  · unfold display_mem_go
    rw [if_neg (by omega)]
    repeat' split
    all_goals simp [List.mem_map]
  · unfold change_mem_go
    rw [if_neg (by omega)]
    repeat' split
    all_goals simp
  · unfold fill_mem_go
    rw [if_neg (by omega)]
    repeat' split
    all_goals simp
  · unfold display_mem_go
    rw [if_pos (by omega)]
  · unfold change_mem_go
    rw [if_pos (by omega)]
  · unfold fill_mem_go
    rw [if_pos (by omega)]

/-- Claim C7 witness: on a 4-byte region, `change` at start address 4 passes
the check (addr = size) and performs the full 32-bit write although
`addr + 4` exceeds the size. -/
theorem change_checks_start_only_witness :
    4 ≤ s4.dev.size ∧
    change_mem_go true s4 32 4 0xAB = ({ s4 with dev := write32sel true s4.big_endian s4.dev 4 0xAB }, [], 0) :=
  ⟨by decide, ((change_checks_start_only true s4 32 4 0xAB).2 (by decide)).2.2⟩

/-- Claim C1 (refuted, code bug): on a 16-byte region, `display` width 8 at
addr 8 with len 0x10 hits the truncation branch, which sets `len` to the
region size 16 instead of `size - addr = 8`; the loop therefore produces 16
one-byte records, at addresses 8..23, reading 8 bytes past the region —
not the claimed `size - addr` bytes. -/
theorem display_truncation_bug :
    countRecords (display_mem_go true s16 8 8 16).2.1 = 16 ∧
    Output.record 23 0 ∈ (display_mem_go true s16 8 8 16).2.1 := by
  decide

/-- Claim C3 (refuted, code bug): the explicit-width fill status check
accepts only status 3 or 4, so `f8 0 A5 4 2` — five conversions, `inc`
supplied — is rejected as a syntax error and fills nothing; by contrast the
default-width form `f 0 A5 8 2` honours the supplied increment 2 (second
unit reads 0xA7), and the explicit-width form without `inc`, `f8 0 A5 4`,
defaults the increment to 1 (second byte 0xA6). -/
theorem fill_inc_syntax_bug :
    fill_mem true s16 ("f8 0 A5 4 2".toList) = (s16, [Output.syntaxError], 0) ∧
    (fill_mem true s16 ("f 0 A5 8 2".toList)).1.dev.mem 4 = 0xA7 ∧
    (fill_mem true s16 ("f8 0 A5 4".toList)).1.dev.mem 1 = 0xA6 :=
  ⟨rfl, rfl, rfl⟩

/-- Claim C5: with the endian flag big, a 16-bit change of 0x196E at addr 4
stores the raw bytes 0x19 then 0x6E (most significant first); with the flag
little it stores 0x6E then 0x19 — and this holds for either host byte
order, i.e. the code reorders exactly when the host's native order differs
from the selected mode. -/
theorem endian_store_byte_order (hostLE : Bool) :
    ((change_mem_go hostLE ⟨dev0, 1⟩ 16 4 0x196E).1.dev.mem 4 = 0x19 ∧
     (change_mem_go hostLE ⟨dev0, 1⟩ 16 4 0x196E).1.dev.mem 5 = 0x6E) ∧
    ((change_mem_go hostLE ⟨dev0, 0⟩ 16 4 0x196E).1.dev.mem 4 = 0x6E ∧
     (change_mem_go hostLE ⟨dev0, 0⟩ 16 4 0x196E).1.dev.mem 5 = 0x19) := by
  cases hostLE <;> decide

/-- Claim C10: an endian command whose suffix character is neither `b` nor
`l` is reported as a syntax error and leaves the session flag untouched,
and the startup flag value is 0, i.e. little-endian: a bare `e` on a fresh
session reports little-endian. -/
theorem endian_bad_suffix (dev : device_t) (s : session) (e c : Char)
    (rest : List Char) (h1 : c ≠ 'b') (h2 : c ≠ 'l') :
    change_endian s (e :: c :: rest) = (s, [Output.syntaxError], 0) ∧
    big_endian_startup = 0 ∧
    change_endian ⟨dev, big_endian_startup⟩ [e] = (⟨dev, big_endian_startup⟩, [Output.endianLittle], 0) := by
  refine ⟨?_, rfl, rfl⟩
  simp [change_endian, h1, h2]

/-- Claim C10 witness: `ex` on a fresh 16-byte session. -/
theorem endian_bad_suffix_witness :
    change_endian s16 ('e' :: 'x' :: []) = (s16, [Output.syntaxError], 0) ∧
    big_endian_startup = 0 ∧
    change_endian ⟨dev0, big_endian_startup⟩ ['e'] = (⟨dev0, big_endian_startup⟩, [Output.endianLittle], 0) :=
  endian_bad_suffix dev0 s16 'e' 'x' [] (by decide) (by decide)

/-- Claim C2 (refuted): on a 4-byte region, address 4 is out of bounds for
every width, yet `write_8` stores the byte there and `read_8` returns it:
the low-level primitives perform the access instead of failing with
`OutOfBounds`. -/
theorem region_primitives_cex :
    (write_8 dev4 4 0xAB).mem 4 = 0xAB ∧
    read_8 (write_8 dev4 4 0xAB) 4 = 0xAB ∧
    dev4.size < 4 + 1 := by
  decide

/-- Claim C2 (amended): the Region primitives `read_8/16/32` and
`write_8/16/32` contain no bounds check at all — for every address,
including every out-of-bounds one (`size < addr + 1` implies
`addr + width_bytes > size` for each width), the write stores the
value's bytes at `addr` and the matching read returns them; there is no
`OutOfBounds` failure path in these functions. -/
theorem region_primitives_unchecked (hostLE : Bool) (dev : device_t)
    (addr d : Nat) (h : dev.size < addr + 1) :
    (write_8 dev addr d).mem addr = d % 256 ∧
    read_8 dev addr = dev.mem addr % 256 ∧
    read_le16 hostLE (write_le16 hostLE dev addr d) addr = d % 65536 ∧
    read_be16 hostLE (write_be16 hostLE dev addr d) addr = d % 65536 ∧
    read_le32 hostLE (write_le32 hostLE dev addr d) addr = d % 4294967296 ∧
    read_be32 hostLE (write_be32 hostLE dev addr d) addr = d % 4294967296 := by
  refine ⟨?_, rfl, read_le16_write_le16 hostLE dev addr d,
    read_be16_write_be16 hostLE dev addr d,
    read_le32_write_le32 hostLE dev addr d,
    read_be32_write_be32 hostLE dev addr d⟩
  simp [write_8, setByte]

/-- Claim C2 amended witness: out-of-bounds byte write on the 4-byte
region. -/
theorem region_primitives_unchecked_witness :
    dev4.size < 4 + 1 ∧ (write_8 dev4 4 0xCD).mem 4 = 0xCD % 256 :=
  ⟨by decide, (region_primitives_unchecked true dev4 4 0xCD (by decide)).1⟩

/-- Claim C4: for every in-bounds `(addr, width)`, reading back after a
write returns the value truncated to the width, for both endian modes and
either host byte order: the encode and decode conversions are inverses. -/
theorem readback_roundtrip (hostLE : Bool) (dev : device_t) (addr v : Nat) :
    (addr + 1 ≤ dev.size →
      read_8 (write_8 dev addr v) addr = v % 256) ∧
    (addr + 2 ≤ dev.size →
      read_le16 hostLE (write_le16 hostLE dev addr v) addr = v % 65536 ∧
      read_be16 hostLE (write_be16 hostLE dev addr v) addr = v % 65536) ∧
    (addr + 4 ≤ dev.size →
      read_le32 hostLE (write_le32 hostLE dev addr v) addr = v % 4294967296 ∧
      read_be32 hostLE (write_be32 hostLE dev addr v) addr = v % 4294967296) :=
  ⟨fun _ => read_8_write_8_same dev addr v,
   fun _ => ⟨read_le16_write_le16 hostLE dev addr v, read_be16_write_be16 hostLE dev addr v⟩,
   fun _ => ⟨read_le32_write_le32 hostLE dev addr v, read_be32_write_be32 hostLE dev addr v⟩⟩

/-- Claim C4 witness: 32-bit and 16-bit round-trips at addr 3 on the
16-byte region. -/
theorem readback_roundtrip_witness :
    3 + 4 ≤ dev0.size ∧
    read_le32 true (write_le32 true dev0 3 0x12345678) 3 = 0x12345678 % 4294967296 ∧
    read_be16 true (write_be16 true dev0 3 0xABCD) 3 = 0xABCD % 65536 :=
  ⟨by decide, ((readback_roundtrip true dev0 3 0x12345678).2.2 (by decide)).1,
    ((readback_roundtrip true dev0 3 0xABCD).2.1 (by decide)).2⟩

/-- Claim C6: for every in-bounds fill, the unit at index `i` (one, two or
four bytes per unit) holds `value + i * increment` truncated to the width,
read back in the same endian mode the fill wrote with. -/
theorem fill_pattern (hostLE : Bool) (s : session) (addr v len inc : Nat)
    (h : addr + len ≤ s.dev.size) :
    (∀ i, i < len →
      read_8 (fill_mem_go hostLE s 8 addr v len inc).1.dev (addr + i) = (v + i * inc) % 256) ∧
    (∀ i, i < len / 2 →
      read16sel hostLE s.big_endian (fill_mem_go hostLE s 16 addr v len inc).1.dev (addr + 2 * i) = (v + i * inc) % 65536) ∧
    (∀ i, i < len / 4 →
      read32sel hostLE s.big_endian (fill_mem_go hostLE s 32 addr v len inc).1.dev (addr + 4 * i) = (v + i * inc) % 4294967296) := by
  refine ⟨?_, ?_, ?_⟩
  · intro i hi
    rw [fill_mem_go_8 hostLE s addr v len inc h]
    exact fillLoop8_read s.dev addr v inc len i hi
  · intro i hi
    rw [fill_mem_go_16 hostLE s addr v len inc h]
    exact fillLoop16_read hostLE s.big_endian s.dev addr v inc (len / 2) i hi
  · intro i hi
    rw [fill_mem_go_32 hostLE s addr v len inc h]
    exact fillLoop32_read hostLE s.big_endian s.dev addr v inc (len / 4) i hi

/-- Claim C6 witness: `fill(32, addr 0, value 0xA5, len 16, inc 1)` on the
16-byte region; unit index 3 (address 12) reads back `0xA5 + 3`, i.e.
0xA8. -/
theorem fill_pattern_witness :
    0 + 16 ≤ s16.dev.size ∧
    read32sel true s16.big_endian (fill_mem_go true s16 32 0 0xA5 16 1).1.dev (0 + 4 * 3) = (0xA5 + 3 * 1) % 4294967296 :=
  ⟨by decide, (fill_pattern true s16 0 0xA5 16 1 (by decide)).2.2 3 (by decide)⟩
